import Mathlib

/-!
# Verification of the rental-property analysis core

Shallow embedding of the computational core of the repository
(`src/app.py` and `src/rent_app.py`): mortgage payment, amortization
schedule, cash-flow projection, IRR/NPV wrappers, break-even search and
the deal scorer.  Python floats are modelled as exact rationals (`ℚ`);
a Python `ZeroDivisionError` (or any other synchronous exception) is
modelled as an `Option` returning `none`.
-/

namespace RentalAnalysis

/-- Monthly mortgage payment.  Models `mortgage_payment_calc` in
`src/app.py` lines 72-77 and (identically) `src/rent_app.py` lines 15-21:
`monthly_rate = rate/100/12`, `n = years*12`; if the monthly rate is zero
the payment is `loan / n`, otherwise the annuity formula
`loan * (mr * (1+mr)^n) / ((1+mr)^n - 1)`.  The two places where the
Python code can raise `ZeroDivisionError` (`n = 0` in the first branch,
vanishing denominator in the second) are modelled as `none`. -/
def mortgage_payment_calc (loan_amount annual_interest_rate : ℚ)
    (loan_term_years : ℕ) : Option ℚ :=
  let monthly_rate := annual_interest_rate / 100 / 12
  let n_payments := loan_term_years * 12
  if monthly_rate = 0 then
    if (n_payments : ℚ) = 0 then none
    else some (loan_amount / (n_payments : ℚ))
  else
    if (1 + monthly_rate) ^ n_payments - 1 = 0 then none
    else some (loan_amount * (monthly_rate * (1 + monthly_rate) ^ n_payments) /
      ((1 + monthly_rate) ^ n_payments - 1))

/-- The payment formula as the specification words it (§4.1):
`monthlyRate = r/100/12`, `n = termYears*12`; payment is
`principal / n` when the monthly rate is zero and
`principal * monthlyRate * (1+monthlyRate)^n / ((1+monthlyRate)^n - 1)`
otherwise. -/
def spec_payment (principal r : ℚ) (termYears : ℕ) : ℚ :=
  let monthlyRate := r / 100 / 12
  let n := termYears * 12
  if monthlyRate = 0 then principal / (n : ℚ)
  else principal * monthlyRate * (1 + monthlyRate) ^ n /
    ((1 + monthlyRate) ^ n - 1)

/-- With a non-negative rate and at least one year of term, the annuity
denominator of the payment formula is positive when the monthly rate is
nonzero. -/
lemma denom_pos {r : ℚ} (t : ℕ) (hr : 0 ≤ r) (ht : 1 ≤ t)
    (hmr : r / 100 / 12 ≠ 0) :
    0 < (1 + r / 100 / 12) ^ (t * 12) - 1 := by
  have hmr0 : 0 < r / 100 / 12 := lt_of_le_of_ne (by positivity) (Ne.symm hmr)
  have h1 : (1 : ℚ) < 1 + r / 100 / 12 := by linarith
  have hn : t * 12 ≠ 0 := by omega
  have := one_lt_pow₀ h1 hn
  linarith

/-- C1: for a loan with positive principal, positive term and non-negative
rate, the monthly payment function returns exactly the specification's
formula (straight-line `principal/n` at zero monthly rate, the annuity
formula otherwise). -/
theorem mortgage_payment_matches_spec (L r : ℚ) (t : ℕ)
    (hL : 0 < L) (hr : 0 ≤ r) (ht : 1 ≤ t) :
    mortgage_payment_calc L r t = some (spec_payment L r t) := by
  simp only [mortgage_payment_calc, spec_payment]
  split_ifs with h1 h2 h3
  · exfalso
    have : t * 12 ≠ 0 := by omega
    exact this (by exact_mod_cast h2)
  · rfl
  · exact absurd h3 (ne_of_gt (denom_pos t hr ht h1))
  · congr 1
    ring

/-- Witness for C1 at `L = 1200`, `r = 0`, `t = 1`. -/
theorem mortgage_payment_matches_spec_witness :
    (0 : ℚ) < 1200 ∧ (0 : ℚ) ≤ 0 ∧ 1 ≤ 1 ∧
      mortgage_payment_calc 1200 0 1 = some (spec_payment 1200 0 1) :=
  ⟨by norm_num, le_refl 0, le_refl 1,
    mortgage_payment_matches_spec 1200 0 1 (by norm_num) (le_refl 0) (le_refl 1)⟩

/-- C2 counterexample: with principal `-1200 ≤ 0` (term 1 year, rate 0)
the payment computation does not fail at all — it returns the finite
payment `-100`.  No `InvalidInputError` is defined or raised anywhere in
the source. -/
theorem invalid_principal_returns_finite_payment :
    (-1200 : ℚ) ≤ 0 ∧ mortgage_payment_calc (-1200) 0 1 = some (-100) := by
  constructor
  · norm_num
  · norm_num [mortgage_payment_calc]

/-- C2 amended: the code performs no input validation.  For any
principal ≤ 0 with a positive term and non-negative rate the payment
function still returns a finite payment (no error), and a zero term
fails with a `ZeroDivisionError` (modelled as `none`), not with
`InvalidInputError`. -/
theorem no_input_validation (L r : ℚ) (t : ℕ)
    (hL : L ≤ 0) (hr : 0 ≤ r) (ht : 1 ≤ t) :
    (mortgage_payment_calc L r t).isSome = true ∧
      mortgage_payment_calc L r 0 = none := by
  constructor
  · simp only [mortgage_payment_calc]
    split_ifs with h1 h2 h3
    · exfalso
      have : t * 12 ≠ 0 := by omega
      exact this (by exact_mod_cast h2)
    · rfl
    · exact absurd h3 (ne_of_gt (denom_pos t hr ht h1))
    · rfl
  · simp only [mortgage_payment_calc]
    split_ifs with h1 h2 h3
    · rfl
    · exact absurd (by norm_num : (((0 * 12 : ℕ)) : ℚ) = 0) h2
    · rfl
    · exact absurd (by norm_num : (1 + r / 100 / 12) ^ (0 * 12) - 1 = 0) h3

/-- Witness for C2's amended claim at `L = -1200`, `r = 0`, `t = 1`. -/
theorem no_input_validation_witness :
    (-1200 : ℚ) ≤ 0 ∧ (0 : ℚ) ≤ 0 ∧ 1 ≤ 1 ∧
      ((mortgage_payment_calc (-1200) 0 1).isSome = true ∧
        mortgage_payment_calc (-1200) 0 0 = none) :=
  ⟨by norm_num, le_refl 0, le_refl 1,
    no_input_validation (-1200) 0 1 (by norm_num) (le_refl 0) (le_refl 1)⟩

/-- One row of the amortization schedule: the dict appended in
`src/app.py` lines 89-95 and `src/rent_app.py` line 33 (month, payment,
principal portion, interest portion, remaining balance). -/
structure AmortEntry where
  month : ℕ
  payment : ℚ
  principal : ℚ
  interest : ℚ
  balance : ℚ

/-- One balance update of the amortization loop
(`src/rent_app.py` lines 30-32, identically `src/app.py` lines 86-88):
`interest = balance*monthly_rate`; `principal = payment - interest`;
`balance = max(balance - principal, 0)`, with `principal` substituted. -/
def balStep (payment monthly_rate b : ℚ) : ℚ :=
  max (b - (payment - b * monthly_rate)) 0

/-- The loop of `amortization_schedule` (`src/rent_app.py` lines 27-33):
`k` months remain, `m` is the current 1-based month number and `b` the
running balance entering the month.  Each row records the interest
`b*monthly_rate`, the principal portion `payment - interest` and the
clamped new balance. -/
def amortRec (payment monthly_rate : ℚ) : ℕ → ℕ → ℚ → List AmortEntry
  | 0, _, _ => []
  | k + 1, m, b =>
    { month := m, payment := payment,
      principal := payment - b * monthly_rate,
      interest := b * monthly_rate,
      balance := balStep payment monthly_rate b } ::
      amortRec payment monthly_rate k (m + 1) (balStep payment monthly_rate b)

/-- Schedule builder `amortization_schedule` of `src/rent_app.py` lines 23-34 (the
`src/app.py` lines 79-96 variant additionally rounds the *recorded*
fields to 2 decimals for display; its running balance is the same):
computes the payment, then iterates the balance update over months
`1..loan_term_years*12`.  A failing payment computation
(`ZeroDivisionError`) propagates as `none`. -/
def amortization_schedule (loan_amount annual_interest_rate : ℚ)
    (loan_term_years : ℕ) : Option (List AmortEntry) :=
  (mortgage_payment_calc loan_amount annual_interest_rate loan_term_years).map
    fun payment =>
      amortRec payment (annual_interest_rate / 100 / 12)
        (loan_term_years * 12) 1 loan_amount

/-- Inverts `mortgage_payment_calc ... = some p` into its two branches. -/
lemma mortgage_payment_calc_cases {L r : ℚ} {t : ℕ} {p : ℚ}
    (h : mortgage_payment_calc L r t = some p) :
    (r / 100 / 12 = 0 ∧ ((t * 12 : ℕ) : ℚ) ≠ 0 ∧
        p = L / ((t * 12 : ℕ) : ℚ)) ∨
      (r / 100 / 12 ≠ 0 ∧ (1 + r / 100 / 12) ^ (t * 12) - 1 ≠ 0 ∧
        p = L * (r / 100 / 12 * (1 + r / 100 / 12) ^ (t * 12)) /
          ((1 + r / 100 / 12) ^ (t * 12) - 1)) := by
  simp only [mortgage_payment_calc] at h
  by_cases h1 : r / 100 / 12 = 0
  · by_cases h2 : ((t * 12 : ℕ) : ℚ) = 0
    · rw [if_pos h1, if_pos h2] at h
      exact absurd h (by simp)
    · rw [if_pos h1, if_neg h2] at h
      injection h with h'
      exact Or.inl ⟨h1, h2, h'.symm⟩
  · by_cases h3 : (1 + r / 100 / 12) ^ (t * 12) - 1 = 0
    · rw [if_neg h1, if_pos h3] at h
      exact absurd h (by simp)
    · rw [if_neg h1, if_neg h3] at h
      injection h with h'
      exact Or.inr ⟨h1, h3, h'.symm⟩

/-- Under the claim's preconditions the computed payment is non-negative
and covers one month of interest on the full principal. -/
lemma payment_facts {L r : ℚ} {t : ℕ} {p : ℚ} (hL : 0 < L) (hr : 0 ≤ r)
    (ht : 1 ≤ t) (h : mortgage_payment_calc L r t = some p) :
    0 ≤ p ∧ L * (r / 100 / 12) ≤ p := by
  rcases mortgage_payment_calc_cases h with ⟨h1, _h2, rfl⟩ | ⟨h1, _h2, rfl⟩
  · have hn : (0 : ℚ) < ((t * 12 : ℕ) : ℚ) := by
      have : 0 < t * 12 := by omega
      exact_mod_cast this
    refine ⟨by positivity, ?_⟩
    rw [h1, mul_zero]
    positivity
  · have hmr : 0 < r / 100 / 12 := lt_of_le_of_ne (by positivity) (Ne.symm h1)
    have hd : 0 < (1 + r / 100 / 12) ^ (t * 12) - 1 := denom_pos t hr ht h1
    constructor
    · apply div_nonneg _ (le_of_lt hd)
      positivity
    · rw [le_div_iff₀ hd]
      nlinarith [mul_pos hL hmr]

/-- The running-balance invariant of the amortization loop: the balance
is non-negative and its one-month interest does not exceed the payment. -/
def BalInv (payment monthly_rate b : ℚ) : Prop :=
  0 ≤ b ∧ b * monthly_rate ≤ payment

/-- Under the invariant a balance update never increases the balance. -/
lemma balStep_le {payment monthly_rate b : ℚ}
    (h : BalInv payment monthly_rate b) :
    balStep payment monthly_rate b ≤ b := by
  rcases h with ⟨h0, h1⟩
  unfold balStep
  apply max_le _ h0
  linarith

/-- The balance invariant is preserved by the balance update. -/
lemma balInv_step {payment monthly_rate b : ℚ} (hpay : 0 ≤ payment)
    (hmr : 0 ≤ monthly_rate) (h : BalInv payment monthly_rate b) :
    BalInv payment monthly_rate (balStep payment monthly_rate b) := by
  rcases h with ⟨h0, h1⟩
  refine ⟨le_max_right _ _, ?_⟩
  unfold balStep
  rcases max_cases (b - (payment - b * monthly_rate)) 0 with ⟨heq, _⟩ | ⟨heq, _⟩ <;>
    rw [heq]
  · nlinarith [mul_nonneg (sub_nonneg.2 h1) hmr]
  · simpa using hpay

/-- Every recorded balance in the schedule loop is non-negative. -/
lemma amortRec_balance_nonneg (payment monthly_rate : ℚ) :
    ∀ (k m : ℕ) (b : ℚ), ∀ e ∈ amortRec payment monthly_rate k m b,
      0 ≤ e.balance := by
  intro k
  induction k with
  | zero => intro m b e he; simp [amortRec] at he
  | succ k ih =>
    intro m b e he
    simp only [amortRec, List.mem_cons] at he
    rcases he with rfl | he
    · exact le_max_right _ _
    · exact ih _ _ e he

/-- The head of a nonempty schedule segment records the stepped balance. -/
lemma amortRec_head_balance (payment monthly_rate : ℚ) (k m : ℕ) (b : ℚ)
    (e : AmortEntry)
    (he : (amortRec payment monthly_rate k m b).head? = some e) :
    e.balance = balStep payment monthly_rate b := by
  cases k with
  | zero => simp [amortRec] at he
  | succ k =>
    simp only [amortRec, List.head?_cons, Option.some.injEq] at he
    subst he
    rfl

/-- Recorded balances are non-increasing from entry to entry. -/
lemma amortRec_chain (payment monthly_rate : ℚ) (hpay : 0 ≤ payment)
    (hmr : 0 ≤ monthly_rate) :
    ∀ (k m : ℕ) (b : ℚ), BalInv payment monthly_rate b →
      List.Chain' (fun e f => f.balance ≤ e.balance)
        (amortRec payment monthly_rate k m b) := by
  intro k
  induction k with
  | zero => intro m b _; simp [amortRec]
  | succ k ih =>
    intro m b hb
    have hb' := balInv_step hpay hmr hb
    simp only [amortRec]
    apply List.chain'_cons'.2
    constructor
    · intro f hf
      have := amortRec_head_balance payment monthly_rate k (m + 1)
        (balStep payment monthly_rate b) f hf
      rw [this]
      exact balStep_le hb'
    · exact ih (m + 1) _ hb'

/-- The last entry of a nonempty schedule segment records the `k`-times
iterated balance update. -/
lemma amortRec_getLast_balance (payment monthly_rate : ℚ) :
    ∀ (k m : ℕ) (b : ℚ), 1 ≤ k →
      ∃ e, (amortRec payment monthly_rate k m b).getLast? = some e ∧
        e.balance = (balStep payment monthly_rate)^[k] b := by
  intro k
  induction k with
  | zero => intro m b h; omega
  | succ k ih =>
    intro m b _
    cases k with
    | zero =>
      refine ⟨AmortEntry.mk m payment (payment - b * monthly_rate) (b * monthly_rate) (balStep payment monthly_rate b), ?_, ?_⟩
      · simp [amortRec]
      · simp
    | succ k' =>
      obtain ⟨e, he, hbal⟩ :=
        ih (m + 1) (balStep payment monthly_rate b) (by omega)
      refine ⟨e, ?_, ?_⟩
      · simp only [amortRec, List.getLast?_cons_cons] at he ⊢
        exact he
      · rw [hbal, ← Function.iterate_succ_apply]

/-- If a sequence `B` starts at `L`, satisfies the exact annuity
recurrence `B (k+1) = B k * (1 + mr) - payment` and stays non-negative
up to `n`, then the clamped balance iteration follows `B` up to `n`. -/
lemma iterate_balStep_eq (payment monthly_rate L : ℚ) (n : ℕ) (B : ℕ → ℚ)
    (h0 : B 0 = L)
    (hstep : ∀ k, k < n → B k * (1 + monthly_rate) - payment = B (k + 1))
    (hnn : ∀ k, k ≤ n → 0 ≤ B k) :
    ∀ k, k ≤ n → (balStep payment monthly_rate)^[k] L = B k := by
  intro k
  induction k with
  | zero => intro _; simpa using h0.symm
  | succ k ih =>
    intro hk
    rw [Function.iterate_succ_apply', ih (by omega)]
    unfold balStep
    have harith : B k - (payment - B k * monthly_rate) =
        B k * (1 + monthly_rate) - payment := by ring
    rw [harith, hstep k (by omega)]
    exact max_eq_left (hnn (k + 1) hk)

/-- In exact arithmetic the balance reaches exactly 0 after the final
payment. -/
lemma final_balance_zero {L r p : ℚ} {t : ℕ} (hL : 0 < L) (hr : 0 ≤ r)
    (ht : 1 ≤ t) (h : mortgage_payment_calc L r t = some p) :
    (balStep p (r / 100 / 12))^[t * 12] L = 0 := by
  rcases mortgage_payment_calc_cases h with ⟨h1, h2, rfl⟩ | ⟨h1, h2, rfl⟩
  · -- zero monthly rate: straight-line payoff
    have hn : (0 : ℚ) < ((t * 12 : ℕ) : ℚ) := by
      have : 0 < t * 12 := by omega
      exact_mod_cast this
    have key := iterate_balStep_eq (L / ((t * 12 : ℕ) : ℚ)) (r / 100 / 12) L
      (t * 12) (fun k => L - (k : ℚ) * (L / ((t * 12 : ℕ) : ℚ)))
      (by show L - ((0 : ℕ) : ℚ) * _ = L; push_cast; ring)
      (by
        intro k _
        show (L - (k : ℚ) * (L / ((t * 12 : ℕ) : ℚ))) * (1 + r / 100 / 12) -
          L / ((t * 12 : ℕ) : ℚ) =
          L - ((k + 1 : ℕ) : ℚ) * (L / ((t * 12 : ℕ) : ℚ))
        rw [h1]
        push_cast
        ring)
      (by
        intro k hk
        show 0 ≤ L - (k : ℚ) * (L / ((t * 12 : ℕ) : ℚ))
        have hkq : (k : ℚ) ≤ ((t * 12 : ℕ) : ℚ) := by exact_mod_cast hk
        rw [sub_nonneg]
        calc (k : ℚ) * (L / ((t * 12 : ℕ) : ℚ))
            ≤ ((t * 12 : ℕ) : ℚ) * (L / ((t * 12 : ℕ) : ℚ)) := by
              apply mul_le_mul_of_nonneg_right hkq
              positivity
          _ = L := by field_simp)
    rw [key (t * 12) (le_refl _)]
    field_simp
  · -- positive monthly rate: exact annuity closed form
    have hmr : 0 < r / 100 / 12 := lt_of_le_of_ne (by positivity) (Ne.symm h1)
    have hd : 0 < (1 + r / 100 / 12) ^ (t * 12) - 1 := denom_pos t hr ht h1
    have hone : (1 : ℚ) ≤ 1 + r / 100 / 12 := by linarith
    have key := iterate_balStep_eq
      (L * (r / 100 / 12 * (1 + r / 100 / 12) ^ (t * 12)) /
        ((1 + r / 100 / 12) ^ (t * 12) - 1))
      (r / 100 / 12) L (t * 12)
      (fun k => L * ((1 + r / 100 / 12) ^ (t * 12) - (1 + r / 100 / 12) ^ k) /
        ((1 + r / 100 / 12) ^ (t * 12) - 1))
      (by
        show L * ((1 + r / 100 / 12) ^ (t * 12) - (1 + r / 100 / 12) ^ 0) /
          ((1 + r / 100 / 12) ^ (t * 12) - 1) = L
        rw [pow_zero, mul_div_assoc, div_self h2, mul_one])
      (by
        intro k _
        show L * ((1 + r / 100 / 12) ^ (t * 12) - (1 + r / 100 / 12) ^ k) /
            ((1 + r / 100 / 12) ^ (t * 12) - 1) * (1 + r / 100 / 12) -
            L * (r / 100 / 12 * (1 + r / 100 / 12) ^ (t * 12)) /
              ((1 + r / 100 / 12) ^ (t * 12) - 1) =
          L * ((1 + r / 100 / 12) ^ (t * 12) - (1 + r / 100 / 12) ^ (k + 1)) /
            ((1 + r / 100 / 12) ^ (t * 12) - 1)
        rw [div_mul_eq_mul_div, div_sub_div_same]
        congr 1
        ring)
      (by
        intro k hk
        show 0 ≤ L * ((1 + r / 100 / 12) ^ (t * 12) - (1 + r / 100 / 12) ^ k) /
          ((1 + r / 100 / 12) ^ (t * 12) - 1)
        apply div_nonneg _ (le_of_lt hd)
        have hpow : (1 + r / 100 / 12) ^ k ≤ (1 + r / 100 / 12) ^ (t * 12) :=
          pow_le_pow_right₀ hone hk
        nlinarith)
    rw [key (t * 12) (le_refl _)]
    simp

/-- C6: for a loan with positive principal, non-negative rate and at
least one year of term, every recorded balance of the amortization
schedule is non-negative, the balances are non-increasing from entry to
entry, and the final entry's balance is exactly 0 (exact arithmetic). -/
theorem amortization_balance_invariants (L r : ℚ) (t : ℕ)
    (sched : List AmortEntry) (hL : 0 < L) (hr : 0 ≤ r) (ht : 1 ≤ t)
    (hs : amortization_schedule L r t = some sched) :
    (∀ e ∈ sched, 0 ≤ e.balance) ∧
      List.Chain' (fun e f => f.balance ≤ e.balance) sched ∧
      ∃ elast, sched.getLast? = some elast ∧ elast.balance = 0 := by
  rw [amortization_schedule] at hs
  cases hmp : mortgage_payment_calc L r t with
  | none => rw [hmp] at hs; simp at hs
  | some p =>
    rw [hmp] at hs
    simp only [Option.map_some', Option.some.injEq] at hs
    subst hs
    obtain ⟨hp0, hLmr⟩ := payment_facts hL hr ht hmp
    have hmr0 : 0 ≤ r / 100 / 12 := by positivity
    have hinv : BalInv p (r / 100 / 12) L := ⟨le_of_lt hL, hLmr⟩
    refine ⟨amortRec_balance_nonneg p (r / 100 / 12) (t * 12) 1 L,
      amortRec_chain p (r / 100 / 12) hp0 hmr0 (t * 12) 1 L hinv, ?_⟩
    obtain ⟨e, he, hbal⟩ :=
      amortRec_getLast_balance p (r / 100 / 12) (t * 12) 1 L (by omega)
    exact ⟨e, he, by rw [hbal, final_balance_zero hL hr ht hmp]⟩

/-- Witness for C6 at `L = 1200`, `r = 0`, `t = 1`. -/
theorem amortization_balance_invariants_witness :
    (0 : ℚ) < 1200 ∧ (0 : ℚ) ≤ 0 ∧ 1 ≤ 1 ∧
      ((∀ e ∈ amortRec 100 0 12 1 1200, 0 ≤ e.balance) ∧
        List.Chain' (fun e f => f.balance ≤ e.balance)
          (amortRec 100 0 12 1 1200) ∧
        ∃ elast, (amortRec 100 0 12 1 1200).getLast? = some elast ∧
          elast.balance = 0) :=
  ⟨by norm_num, le_refl 0, le_refl 1,
    amortization_balance_invariants 1200 0 1 (amortRec 100 0 12 1 1200)
      (by norm_num) (le_refl 0) (le_refl 1)
      (by norm_num [amortization_schedule, mortgage_payment_calc])⟩

/-- Gross rent for loop month `month` in `src/app.py` line 106.  There the
loop variable runs over `range(1, months+1)`, so `month` is 1-based. -/
def app_rent (current_rent rent_growth_percent : ℚ) (month : ℕ) : ℚ :=
  current_rent * (1 + rent_growth_percent / 100 / 12) ^ month

/-- The `rents` list built by `calculate_cashflows` in `src/app.py`
lines 104-107: the element at index `i` is the rent appended for loop
month `i + 1`. -/
def app_rents (current_rent rent_growth_percent : ℚ) (years : ℕ) : List ℚ :=
  (List.range (years * 12)).map fun i => app_rent current_rent rent_growth_percent (i + 1)

/-- Models `src/app.py` line 108: vacancy loss on the month's gross rent. -/
def app_vacancy_loss (current_rent rent_growth_percent vacancy_rate : ℚ)
    (month : ℕ) : ℚ :=
  app_rent current_rent rent_growth_percent month * (vacancy_rate / 100)

/-- Models `src/app.py` line 110: maintenance is charged on the gross rent
(`rent * maintenance_percent / 100`), with no vacancy deduction. -/
def app_maintenance (current_rent rent_growth_percent maintenance_percent : ℚ)
    (month : ℕ) : ℚ :=
  app_rent current_rent rent_growth_percent month * (maintenance_percent / 100)

/-- Models `src/app.py` line 113: the mortgage payment charged for loop month
`month` is recomputed by `mortgage_payment_calc` on every iteration and
does not depend on the month — there is no loan-term cutoff. -/
def app_mortgage_payment (loan_amount interest_rate : ℚ)
    (loan_term_years month : ℕ) : Option ℚ :=
  mortgage_payment_calc loan_amount interest_rate loan_term_years

/-- Net cash flow for loop month `month` in `src/app.py` lines 105-116:
rent minus the sum of other expenses, vacancy loss, management fee,
maintenance, monthly tax, monthly insurance, HOA and the mortgage
payment. -/
def app_net_cash_flow (loan_amount : ℚ) (loan_term_years : ℕ)
    (interest_rate monthly_expenses current_rent vacancy_rate mgmt_fee_percent
      maintenance_percent tax_annual insurance_annual hoa_monthly
      rent_growth_percent : ℚ) (month : ℕ) : Option ℚ :=
  (mortgage_payment_calc loan_amount interest_rate loan_term_years).map
    fun mortgage_payment =>
      let rent := app_rent current_rent rent_growth_percent month
      let vacancy_loss := rent * (vacancy_rate / 100)
      let mgmt_fee := rent * (mgmt_fee_percent / 100)
      let maintenance := rent * (maintenance_percent / 100)
      let monthly_tax := tax_annual / 12
      let monthly_insurance := insurance_annual / 12
      let total_expenses := monthly_expenses + vacancy_loss + mgmt_fee +
        maintenance + monthly_tax + monthly_insurance + hoa_monthly +
        mortgage_payment
      rent - total_expenses

/-- Models `src/rent_app.py` line 83: `rent[month]` where `month` is the 0-based
loop index over `range(n_months)`. -/
def ra_rent (current_rent rent_growth_percent : ℚ) (month : ℕ) : ℚ :=
  current_rent * (1 + rent_growth_percent / 100 / 12) ^ month

/-- The `rent` array of `calculate_cashflows` in `src/rent_app.py`
lines 60 and 82-83, as a list indexed by the 0-based month. -/
def ra_rents (current_rent rent_growth_percent : ℚ) (years : ℕ) : List ℚ :=
  (List.range (years * 12)).map (ra_rent current_rent rent_growth_percent)

/-- Models `src/rent_app.py` line 84: vacancy loss on the month's gross rent. -/
def ra_vacancy_loss (current_rent rent_growth_percent vacancy_rate : ℚ)
    (month : ℕ) : ℚ :=
  ra_rent current_rent rent_growth_percent month * (vacancy_rate / 100)

/-- Models `src/rent_app.py` line 86: maintenance is charged on the
post-vacancy effective rent
(`(rent[month] - vacancy_losses[month]) * maintenance_percent / 100`). -/
def ra_maintenance
    (current_rent rent_growth_percent vacancy_rate maintenance_percent : ℚ)
    (month : ℕ) : ℚ :=
  (ra_rent current_rent rent_growth_percent month -
    ra_vacancy_loss current_rent rent_growth_percent vacancy_rate month) *
    (maintenance_percent / 100)

/-- Models `src/rent_app.py` lines 58 and 94: `mortgage_pmt` is the computed
payment when the mortgage is included (else 0), and
`mortgage_payments[month]` is that payment while the 0-based `month` is
below `loan_term_years*12`, else 0. -/
def ra_mortgage_payment (loan_amount interest_rate : ℚ)
    (loan_term_years : ℕ) (include_mortgage : Bool) (month : ℕ) : Option ℚ :=
  if include_mortgage then
    (mortgage_payment_calc loan_amount interest_rate loan_term_years).map
      fun pmt => if month < loan_term_years * 12 then pmt else 0
  else some 0

/-- Rent for the `m`-th projected month as the specification words it:
`baseRent * (1 + rentGrowthPercent/100/12)^m`. -/
def spec_rent (baseRent rentGrowthPercent : ℚ) (m : ℕ) : ℚ :=
  baseRent * (1 + rentGrowthPercent / 100 / 12) ^ m

/-- C3 counterexample: in the `rent_app.py` engine with base rent 1200
and 1200% annual growth (monthly factor 2), the first projected month's
rent is 1200, not the claimed `1200 * 2^1 = 2400`. -/
theorem rent_first_month_not_grown :
    (ra_rents 1200 1200 1)[0]? = some 1200 ∧
      spec_rent 1200 1200 1 = 2400 ∧ (1200 : ℚ) ≠ 2400 := by
  refine ⟨?_, by norm_num [spec_rent], by norm_num⟩
  have h0 : (0 : ℕ) < 1 * 12 := by norm_num
  rw [ra_rents, List.getElem?_map, List.getElem?_range h0]
  norm_num [ra_rent]

/-- C3 amended: for the `m`-th projected month (1-based,
`1 ≤ m ≤ years*12`), the `app.py` engine produces rent
`b*(1+g/100/12)^m` while the `rent_app.py` engine produces
`b*(1+g/100/12)^(m-1)` — its first month carries no growth. -/
theorem rent_growth_exponent (b g : ℚ) (years m : ℕ)
    (h1 : 1 ≤ m) (h2 : m ≤ years * 12) :
    (app_rents b g years)[m - 1]? = some (spec_rent b g m) ∧
      (ra_rents b g years)[m - 1]? = some (spec_rent b g (m - 1)) := by
  have hm : m - 1 < years * 12 := by omega
  have hm1 : m - 1 + 1 = m := by omega
  constructor
  · rw [app_rents, List.getElem?_map, List.getElem?_range hm]
    simp [app_rent, spec_rent, hm1]
  · rw [ra_rents, List.getElem?_map, List.getElem?_range hm]
    simp [ra_rent, spec_rent]

/-- Witness for C3's amended claim at `b = 1000`, `g = 12`, one year,
month 1. -/
theorem rent_growth_exponent_witness :
    1 ≤ 1 ∧ 1 ≤ 1 * 12 ∧
      ((app_rents 1000 12 1)[1 - 1]? = some (spec_rent 1000 12 1) ∧
        (ra_rents 1000 12 1)[1 - 1]? = some (spec_rent 1000 12 (1 - 1))) :=
  ⟨le_refl 1, by norm_num,
    rent_growth_exponent 1000 12 1 1 (le_refl 1) (by norm_num)⟩

/-- C4 counterexample: in the `app.py` engine with gross rent 1000, a
10% vacancy rate and a 10% maintenance rate, the maintenance charged in
month 1 is 100 (10% of gross rent), not the claimed
`(1000 - 100) * 10/100 = 90` on post-vacancy rent. -/
theorem maintenance_charged_on_gross_rent :
    app_maintenance 1000 0 10 1 = 100 ∧
      (app_rent 1000 0 1 - app_vacancy_loss 1000 0 10 1) * (10 / 100) = 90 ∧
      app_maintenance 1000 0 10 1 ≠
        (app_rent 1000 0 1 - app_vacancy_loss 1000 0 10 1) * (10 / 100) := by
  norm_num [app_maintenance, app_rent, app_vacancy_loss]

/-- C4 amended: the `rent_app.py` engine charges maintenance on the
post-vacancy effective rent, `(rent - vacancyLoss)*maintenancePercent/100`;
the `app.py` engine charges it on the gross rent, which is strictly more
than the post-vacancy formula whenever rent, vacancy rate and maintenance
rate are positive. -/
theorem maintenance_base_rule (b g v p : ℚ) (m : ℕ)
    (hb : 0 < b) (hg : 0 ≤ g) (hv : 0 < v) (hp : 0 < p) :
    ra_maintenance b g v p m =
      (ra_rent b g m - ra_vacancy_loss b g v m) * (p / 100) ∧
      (app_rent b g m - app_vacancy_loss b g v m) * (p / 100) <
        app_maintenance b g p m := by
  refine ⟨rfl, ?_⟩
  have hrent : 0 < app_rent b g m := by
    have hbase : (0 : ℚ) < 1 + g / 100 / 12 := by positivity
    unfold app_rent
    positivity
  unfold app_maintenance app_vacancy_loss
  have key : 0 < app_rent b g m * (v / 100) * (p / 100) := by positivity
  nlinarith [key]

/-- Witness for C4's amended claim at `b = 1000`, `g = 0`, `v = 10`,
`p = 10`, month 1. -/
theorem maintenance_base_rule_witness :
    (0 : ℚ) < 1000 ∧ (0 : ℚ) ≤ 0 ∧ (0 : ℚ) < 10 ∧
      (ra_maintenance 1000 0 10 10 1 =
          (ra_rent 1000 0 1 - ra_vacancy_loss 1000 0 10 1) * (10 / 100) ∧
        (app_rent 1000 0 1 - app_vacancy_loss 1000 0 10 1) * (10 / 100) <
          app_maintenance 1000 0 10 1) :=
  ⟨by norm_num, le_refl 0, by norm_num,
    maintenance_base_rule 1000 0 10 10 1 (by norm_num) (le_refl 0)
      (by norm_num) (by norm_num)⟩

/-- C5 counterexample: `app.py` with a 1-year loan (12 payments, 0%
rate, principal 1200, payment 100) still charges the full mortgage
payment in projected month 13 (> 12): the month-13 mortgage charge is
100 and the month-13 net cash flow with all other inputs zero is -100,
not 0. -/
theorem mortgage_charged_after_loan_term :
    app_mortgage_payment 1200 0 1 13 = some 100 ∧
      app_net_cash_flow 1200 1 0 0 0 0 0 0 0 0 0 0 13 = some (-100) ∧
      (100 : ℚ) ≠ 0 := by
  refine ⟨?_, ?_, by norm_num⟩
  · norm_num [app_mortgage_payment, mortgage_payment_calc]
  · norm_num [app_net_cash_flow, mortgage_payment_calc, app_rent]

/-- C5 amended: in the `rent_app.py` engine (mortgage included) the
mortgage component of the `m`-th projected month (1-based) is the
computed payment for `m ≤ loanTermMonths` and 0 for
`m > loanTermMonths`; the `app.py` engine instead charges the full
computed payment in every projected month, including months past the
loan term. -/
theorem mortgage_component_cutoff (L r p : ℚ) (t m : ℕ)
    (hp : mortgage_payment_calc L r t = some p) (hm : 1 ≤ m) :
    (m ≤ t * 12 → ra_mortgage_payment L r t true (m - 1) = some p) ∧
      (t * 12 < m → ra_mortgage_payment L r t true (m - 1) = some 0) ∧
      app_mortgage_payment L r t m = some p := by
  refine ⟨?_, ?_, hp⟩
  · intro hle
    rw [ra_mortgage_payment, if_pos rfl, hp, Option.map_some',
      if_pos (by omega : m - 1 < t * 12)]
  · intro hgt
    rw [ra_mortgage_payment, if_pos rfl, hp, Option.map_some',
      if_neg (by omega : ¬m - 1 < t * 12)]

/-- Witness for C5's amended claim at `L = 1200`, `r = 0`, `t = 1`,
`p = 100`, month 13. -/
theorem mortgage_component_cutoff_witness :
    mortgage_payment_calc 1200 0 1 = some 100 ∧ 1 ≤ 13 ∧
      ((13 ≤ 1 * 12 → ra_mortgage_payment 1200 0 1 true (13 - 1) = some 100) ∧
        (1 * 12 < 13 → ra_mortgage_payment 1200 0 1 true (13 - 1) = some 0) ∧
        app_mortgage_payment 1200 0 1 13 = some 100) :=
  ⟨by norm_num [mortgage_payment_calc], by norm_num,
    mortgage_component_cutoff 1200 0 100 1 13
      (by norm_num [mortgage_payment_calc]) (by norm_num)⟩

/-- Outcome of the external IRR root-finding procedure
(`numpy_financial.irr`, not part of this repository), abstracted as an
oracle: a finite root, a non-finite result (`nan`, also covering a
`None` return), or a raised exception. -/
inductive SolverOutcome where
  | val (x : ℚ)
  | nan
  | err

/-- Models `calculate_irr` of `src/app.py` lines 119-124: prepend
`-down_payment` to the cash flows and run the solver; return `irr * 100`
on a finite result, `None` when the solver returns `nan` (or `None`),
and `None` via the bare `except` when the solver raises. -/
def calculate_irr (solver : List ℚ → SolverOutcome) (cash_flows : List ℚ)
    (down_payment : ℚ) : Option ℚ :=
  match solver (-down_payment :: cash_flows) with
  | .val x => some (x * 100)
  | .nan => none
  | .err => none

/-- C7: the IRR computation is total — it never propagates an error.
On a finite solver result `x` for the series `[-downPayment] ++ cashFlows`
it returns the percent `x * 100`; on a non-finite result or a raised
solver exception (covering non-convergence and no-sign-change series) it
returns `none`. -/
theorem irr_never_raises (solver : List ℚ → SolverOutcome)
    (cash_flows : List ℚ) (down_payment : ℚ) :
    (∀ x, solver (-down_payment :: cash_flows) = SolverOutcome.val x →
        calculate_irr solver cash_flows down_payment = some (x * 100)) ∧
      (solver (-down_payment :: cash_flows) = SolverOutcome.nan →
        calculate_irr solver cash_flows down_payment = none) ∧
      (solver (-down_payment :: cash_flows) = SolverOutcome.err →
        calculate_irr solver cash_flows down_payment = none) :=
  ⟨fun x hx => by simp [calculate_irr, hx],
    fun h => by simp [calculate_irr, h],
    fun h => by simp [calculate_irr, h]⟩

/-- Witness for C7 with a solver that converges to 2 on any series. -/
theorem irr_never_raises_witness :
    (fun _ : List ℚ => SolverOutcome.val 2) (-(5 : ℚ) :: [1]) =
        SolverOutcome.val 2 ∧
      calculate_irr (fun _ => SolverOutcome.val 2) [1] 5 = some (2 * 100) :=
  ⟨rfl, (irr_never_raises (fun _ => SolverOutcome.val 2) [1] 5).1 2 rfl⟩

/-- Models `np.cumsum` (`src/app.py` line 709) as a recursion carrying the
running total. -/
def cumsumAux (acc : ℚ) : List ℚ → List ℚ
  | [] => []
  | x :: xs => (acc + x) :: cumsumAux (acc + x) xs

/-- Cumulative cash flows, `np.cumsum(cash_flows)`. -/
def cumsum (l : List ℚ) : List ℚ := cumsumAux 0 l

/-- The generator
`next((i+1 for i, val in enumerate(cumulative_cf) if val >= down_payment), None)`
of `src/app.py` line 710 (identically `src/rent_app.py` line 111): scan
with 0-based index `i`, yielding `i + 1` at the first element `≥ d`. -/
def firstIdxGe (d : ℚ) : List ℚ → ℕ → Option ℕ
  | [], _ => none
  | v :: rest, i => if d ≤ v then some (i + 1) else firstIdxGe d rest (i + 1)

/-- Models `breakeven_month` of `src/app.py` lines 709-710. -/
def breakeven_month (cash_flows : List ℚ) (down_payment : ℚ) : Option ℕ :=
  firstIdxGe down_payment (cumsum cash_flows) 0

/-- Cumulative cash flow through month `i` (1-based): the sum of the
first `i` monthly cash flows, as the specification words it. -/
def cumThrough (cash_flows : List ℚ) (i : ℕ) : ℚ := (cash_flows.take i).sum

/-- Element `k` of the running-total list is the accumulator plus the sum
of the first `k + 1` inputs. -/
lemma cumsumAux_getElem? (l : List ℚ) : ∀ (a : ℚ) (k : ℕ),
    (cumsumAux a l)[k]? =
      if k < l.length then some (a + (l.take (k + 1)).sum) else none := by
  induction l with
  | nil => intro a k; simp [cumsumAux]
  | cons x xs ih =>
    intro a k
    cases k with
    | zero => simp [cumsumAux]
    | succ k =>
      rw [cumsumAux, List.getElem?_cons_succ, ih (a + x) k]
      simp only [List.length_cons, List.take_succ_cons, List.sum_cons]
      by_cases hk : k < xs.length
      · rw [if_pos hk, if_pos (by omega)]
        congr 1
        ring
      · rw [if_neg hk, if_neg (by omega)]

/-- The scan returns `none` exactly when no element reaches `d`. -/
lemma firstIdxGe_eq_none_iff (d : ℚ) :
    ∀ (l : List ℚ) (i : ℕ),
      firstIdxGe d l i = none ↔ ∀ (k : ℕ) (x : ℚ), l[k]? = some x → x < d := by
  intro l
  induction l with
  | nil => intro i; simp [firstIdxGe]
  | cons v rest ih =>
    intro i
    rw [firstIdxGe]
    by_cases hv : d ≤ v
    · rw [if_pos hv]
      refine iff_of_false (Option.some_ne_none _) fun h => ?_
      exact absurd (h 0 v (by simp)) (not_lt.2 hv)
    · rw [if_neg hv, ih (i + 1)]
      constructor
      · intro h k x hkx
        cases k with
        | zero =>
          rw [List.getElem?_cons_zero, Option.some.injEq] at hkx
          subst hkx
          exact lt_of_not_le hv
        | succ k => exact h k x (by simpa using hkx)
      · intro h k x hkx
        exact h (k + 1) x (by simpa using hkx)

/-- The scan returns `some j` exactly when `j = i + k + 1` for the first
0-based position `k` whose element reaches `d`. -/
lemma firstIdxGe_eq_some_iff (d : ℚ) :
    ∀ (l : List ℚ) (i j : ℕ),
      firstIdxGe d l i = some j ↔
        ∃ (k : ℕ) (x : ℚ), j = i + k + 1 ∧ l[k]? = some x ∧ d ≤ x ∧
          ∀ (k' : ℕ) (y : ℚ), k' < k → l[k']? = some y → y < d := by
  intro l
  induction l with
  | nil => intro i j; simp [firstIdxGe]
  | cons v rest ih =>
    intro i j
    rw [firstIdxGe]
    by_cases hv : d ≤ v
    · rw [if_pos hv]
      constructor
      · intro h
        injection h with h
        exact ⟨0, v, by omega, by simp, hv,
          fun k' y hk' => absurd hk' (Nat.not_lt_zero _)⟩
      · rintro ⟨k, x, hj, hkx, hdx, hmin⟩
        cases k with
        | zero =>
          rw [Option.some.injEq]
          omega
        | succ k =>
          exact absurd (hmin 0 v (by omega) (by simp)) (not_lt.2 hv)
    · rw [if_neg hv, ih (i + 1) j]
      constructor
      · rintro ⟨k, x, hj, hkx, hdx, hmin⟩
        refine ⟨k + 1, x, by omega, by simpa using hkx, hdx, ?_⟩
        intro k' y hk' hky
        cases k' with
        | zero =>
          rw [List.getElem?_cons_zero, Option.some.injEq] at hky
          subst hky
          exact lt_of_not_le hv
        | succ k' => exact hmin k' y (by omega) (by simpa using hky)
      · rintro ⟨k, x, hj, hkx, hdx, hmin⟩
        cases k with
        | zero =>
          rw [List.getElem?_cons_zero, Option.some.injEq] at hkx
          subst hkx
          exact absurd hdx (not_le.2 (lt_of_not_le hv))
        | succ k =>
          refine ⟨k, x, by omega, by simpa using hkx, hdx, ?_⟩
          intro k' y hk' hky
          exact hmin (k' + 1) y (by omega) (by simpa using hky)

/-- C8: the reported break-even month is the first 1-based index whose
cumulative cash flow reaches the down payment, and it is absent exactly
when no month within the horizon reaches it. -/
theorem breakeven_month_correct (cash_flows : List ℚ) (d : ℚ) :
    (∀ i, breakeven_month cash_flows d = some i →
        1 ≤ i ∧ i ≤ cash_flows.length ∧ d ≤ cumThrough cash_flows i ∧
          ∀ j, 1 ≤ j → j < i → cumThrough cash_flows j < d) ∧
      (breakeven_month cash_flows d = none →
        ∀ i, 1 ≤ i → i ≤ cash_flows.length → cumThrough cash_flows i < d) := by
  constructor
  · intro i hi
    rw [breakeven_month, firstIdxGe_eq_some_iff] at hi
    obtain ⟨k, x, hj, hkx, hdx, hmin⟩ := hi
    rw [cumsum, cumsumAux_getElem?] at hkx
    split_ifs at hkx with hk
    · injection hkx with hx
      have hi' : i = k + 1 := by omega
      subst hi'
      have hsum : (cash_flows.take (k + 1)).sum = x := by rw [← hx, zero_add]
      refine ⟨by omega, by omega, ?_, ?_⟩
      · rw [cumThrough, hsum]
        exact hdx
      · intro j hj1 hji
        have hgj : (cumsum cash_flows)[j - 1]? =
            some (cumThrough cash_flows j) := by
          rw [cumsum, cumsumAux_getElem?,
            if_pos (by omega : j - 1 < cash_flows.length), cumThrough]
          have hj1' : j - 1 + 1 = j := by omega
          rw [hj1', zero_add]
        exact hmin (j - 1) (cumThrough cash_flows j) (by omega) hgj
  · intro hn i h1 hlen
    rw [breakeven_month, firstIdxGe_eq_none_iff] at hn
    have hk : i - 1 < cash_flows.length := by omega
    have hget : (cumsum cash_flows)[i - 1]? = some (cumThrough cash_flows i) := by
      rw [cumsum, cumsumAux_getElem?, if_pos hk, cumThrough]
      have hi1 : i - 1 + 1 = i := by omega
      rw [hi1, zero_add]
    exact hn (i - 1) (cumThrough cash_flows i) hget

/-- Witness for C8 on the series `[5, 7]` with down payment 10:
cumulative flows are `[5, 12]`, so break-even is month 2. -/
theorem breakeven_month_correct_witness :
    breakeven_month [5, 7] 10 = some 2 ∧
      (1 ≤ 2 ∧ 2 ≤ ([5, 7] : List ℚ).length ∧
        (10 : ℚ) ≤ cumThrough [5, 7] 2 ∧
        ∀ j, 1 ≤ j → j < 2 → cumThrough [5, 7] j < 10) :=
  ⟨by norm_num [breakeven_month, cumsum, cumsumAux, firstIdxGe],
    (breakeven_month_correct [5, 7] 10).1 2
      (by norm_num [breakeven_month, cumsum, cumsumAux, firstIdxGe])⟩

/-- Models `normalize` of `src/app.py` lines 449-450:
`min(value / ideal, 1.0) * max_score`.  The division has no zero guard,
so `ideal = 0` raises `ZeroDivisionError`, modelled as `none`. -/
def normalize (value ideal max_score : ℚ) : Option ℚ :=
  if ideal = 0 then none else some (min (value / ideal) 1 * max_score)

/-- Python `round(x, 1)` as used at `src/app.py` line 458.  (Python
breaks exact midpoint ties to even where `round` rounds half up; no
input considered here sits at a midpoint.) -/
def round1 (x : ℚ) : ℚ := ((round (x * 10) : ℤ) : ℚ) / 10

/-- The deal-score computation of `src/app.py` lines 452-458: the five
weighted components in source order (cash-on-cash target 12 weight 30,
ROI target 100 weight 25, IRR target 15 weight 20, NPV target
`down_payment` weight 15, cap rate target 6 weight 10) and their sum
rounded to one decimal.  A `ZeroDivisionError` in any component
propagates as `none`. -/
def deal_score (coc_return roi_final irr npv cap_rate down_payment : ℚ) :
    Option ℚ :=
  (normalize coc_return 12 30).bind fun coc_score =>
    (normalize roi_final 100 25).bind fun roi_score =>
      (normalize irr 15 20).bind fun irr_score =>
        (normalize npv down_payment 15).bind fun npv_score =>
          (normalize cap_rate 6 10).map fun cap_score =>
            round1 (coc_score + roi_score + irr_score + npv_score + cap_score)

/-- C9: with a positive down payment, a cash-on-cash return of exactly
12% scores its full weight 30, and with ROI, IRR, NPV and cap rate all 0
the total deal score is exactly 30. -/
theorem coc_full_weight (down_payment : ℚ) (hdp : 0 < down_payment) :
    normalize 12 12 30 = some 30 ∧
      deal_score 12 0 0 0 0 down_payment = some 30 := by
  have hdp' : down_payment ≠ 0 := ne_of_gt hdp
  constructor
  · rw [normalize, if_neg (by norm_num : (12 : ℚ) ≠ 0)]
    norm_num
  · rw [deal_score]
    rw [normalize, if_neg (by norm_num : (12 : ℚ) ≠ 0)]
    rw [normalize, if_neg (by norm_num : (100 : ℚ) ≠ 0)]
    rw [normalize, if_neg (by norm_num : (15 : ℚ) ≠ 0)]
    rw [normalize, if_neg hdp']
    rw [normalize, if_neg (by norm_num : (6 : ℚ) ≠ 0)]
    simp only [Option.bind_some, Option.map_some', Option.some.injEq]
    norm_num [round1, round_eq]

/-- Witness for C9 at down payment 1. -/
theorem coc_full_weight_witness :
    (0 : ℚ) < 1 ∧
      (normalize 12 12 30 = some 30 ∧ deal_score 12 0 0 0 0 1 = some 30) :=
  ⟨by norm_num, coc_full_weight 1 (by norm_num)⟩

/-- C10: with a zero down payment the NPV component of the deal score
divides by zero, so the whole computation fails
(`ZeroDivisionError`, modelled as `none`) instead of producing a score,
while any positive down payment always yields a score (the other four
targets are the nonzero constants 12, 100, 15 and 6). -/
theorem npv_component_zero_division (coc roi irr npv cap : ℚ) :
    deal_score coc roi irr npv cap 0 = none ∧
      ∀ dp : ℚ, 0 < dp → (deal_score coc roi irr npv cap dp).isSome = true := by
  constructor
  · rw [deal_score]
    rw [normalize, if_neg (by norm_num : (12 : ℚ) ≠ 0)]
    rw [normalize, if_neg (by norm_num : (100 : ℚ) ≠ 0)]
    rw [normalize, if_neg (by norm_num : (15 : ℚ) ≠ 0)]
    rw [normalize, if_pos rfl]
    simp
  · intro dp hdp
    rw [deal_score]
    rw [normalize, if_neg (by norm_num : (12 : ℚ) ≠ 0)]
    rw [normalize, if_neg (by norm_num : (100 : ℚ) ≠ 0)]
    rw [normalize, if_neg (by norm_num : (15 : ℚ) ≠ 0)]
    rw [normalize, if_neg (ne_of_gt hdp)]
    rw [normalize, if_neg (by norm_num : (6 : ℚ) ≠ 0)]
    simp

/-- Witness for C10: down payment 0 fails, down payment 1 succeeds. -/
theorem npv_component_zero_division_witness :
    deal_score 1 2 3 4 5 0 = none ∧ (0 : ℚ) < 1 ∧
      (deal_score 1 2 3 4 5 1).isSome = true :=
  ⟨(npv_component_zero_division 1 2 3 4 5).1, by norm_num,
    (npv_component_zero_division 1 2 3 4 5).2 1 (by norm_num)⟩

end RentalAnalysis
